import Mathlib

/-!
Verification development for the thread-pool core of
`Parallel-Graph-using-Threads` (`src/os_threadpool.c`).

The pool is embedded as a labelled small-step transition system.  Each
mutex-protected critical section of the C code is one atomic step (states
are exactly the points where no thread holds the pool mutex, i.e. the
observable synchronization points), and the unprotected reads/writes
(`tp->active` at line 92, `start = 1` at line 50) are separate steps, so
the interleavings of the model are exactly the interleavings the C code
admits under a sequentially-consistent scheduler.

Tasks are identified by natural numbers (their identity is only their
queue position, as in the source, where a task is a heap cell).
`pthread_cond_wait` may wake spuriously under POSIX, so a blocked worker
may take its wake step at any time; this is exact, not an abstraction.
-/

namespace OsThreadpool

/-- Program counter of one worker thread inside `thread_loop_function`
(src/os_threadpool.c lines 87-114).

* `running`    = at the `while (tp->active == 1)` test (line 92);
* `atDeq`      = the line-92 read returned 1, about to run the body of
                 `dequeue_task` (lines 71-83);
* `executing t`= `dequeue_task` returned task `t`, the worker is inside
                 `task->action(task->argument)` (line 109);
* `gotNull`    = `dequeue_task` returned NULL and released the mutex
                 (line 82), the worker has not yet re-locked at line 96;
* `blocked`    = inside `pthread_cond_wait` (line 103), mutex released;
* `exitedIdle` = left the loop via the `task == NULL` branch
                 (`break` at line 106) — its speculative increment of
                 `waiting_threads` was never undone;
* `exitedLoop` = left the loop because the line-92 read returned 0. -/
inductive WStatus where
  | running
  | atDeq
  | executing (t : Nat)
  | gotNull
  | blocked
  | exitedIdle
  | exitedLoop
deriving DecidableEq, Repr

/-- Condition-variable events, recorded for the specification of the
signalling behaviour (`pthread_cond_signal` at line 57,
`pthread_cond_broadcast` at line 100, `pthread_cond_wait` at line 103). -/
inductive PEvent where
  | signal
  | broadcast
  | waitEnter
deriving DecidableEq, Repr

/-- One atomic step of the system.  Worker steps carry the worker index. -/
inductive Label where
  /-- The function `enqueue_task` (lines 48-59), called by the client thread or from a
  running task action: sets the global `start`, appends at the tail,
  signals the condition variable. -/
  | enq (t : Nat)
  /-- the unlocked read `tp->active == 1` at line 92 returns 1. -/
  | readActiveTrue (i : Nat)
  /-- the unlocked read `tp->active == 1` at line 92 returns 0: the worker
  leaves the loop. -/
  | readActiveFalse (i : Nat)
  /-- the critical section of `dequeue_task` (lines 71-82). -/
  | deq (i : Nat)
  /-- the critical section at lines 96-105 run after `dequeue_task`
  returned NULL, up to either entering `pthread_cond_wait` or the
  `break` at line 106. -/
  | nullRelock (i : Nat)
  /-- The call `pthread_cond_wait` returns (signal, broadcast or spurious wakeup);
  the worker re-acquires the mutex, unlocks at line 105 and executes the
  `break` at line 106. -/
  | wake (i : Nat)
  /-- The action `task->action` returns and `destroy_task` runs (lines 109-110); the
  worker is back at the loop head. -/
  | finish (i : Nat)
  /-- The function `destroy_threadpool` (lines 153-171), called by the client after
  `wait_for_completion`, hence only when every worker has exited. -/
  | destroy
deriving DecidableEq, Repr

/-- The shared state: the pool fields of `os_threadpool_t` together with
the process globals `waiting_threads` (line 12) and `start` (line 13),
plus per-worker program counters and ghost logs (`executed`, `enqLog`,
`events`) that record what happened but influence no transition. -/
structure State where
  /-- task ids in queue order, head first (`tp->head`, intrusive list). -/
  queue : List Nat
  /-- The field `tp->active`. -/
  active : Bool
  /-- the global `start` flag (line 13): 0 iff no `enqueue_task` call has
  happened yet in the process. -/
  start : Bool
  /-- the global `waiting_threads` counter (line 12). -/
  waiting : Nat
  /-- program counter of each worker; the list length is `tp->num_threads`. -/
  workers : List WStatus
  /-- ghost: tasks whose action ran to completion, in completion order. -/
  executed : List Nat
  /-- ghost: every task ever passed to `enqueue_task`, in call order. -/
  enqLog : List Nat
  /-- ghost: condition-variable events, in order. -/
  events : List PEvent
  /-- whether `destroy_threadpool` has run. -/
  destroyed : Bool
deriving DecidableEq, Repr

set_option linter.unusedVariables false in
/-- The function `create_threadpool` (lines 125-150): fresh empty queue, `active = 1`
(line 139), the global `waiting_threads` reset to 0 (line 140) whatever
its previous value `prevWaiting`, the global `start` left untouched at
its previous value `prevStart`, and `num_threads` workers spawned at the
loop head. -/
def create_threadpool (num_threads : Nat) (prevWaiting : Nat) (prevStart : Bool) :
    State :=
  { queue := []
    active := true
    start := prevStart
    waiting := 0
    workers := List.replicate num_threads WStatus.running
    executed := []
    enqLog := []
    events := []
    destroyed := false }

/-- A pool created in a fresh process: the static globals are zero. -/
def init (n : Nat) : State := create_threadpool n 0 false

/-- The body of `dequeue_task` (lines 69-84) on the fields it touches:
`waiting_threads++` (line 74); if the queue is non-empty and
`tp->active == 1`, pop the head (lines 77-78) and `waiting_threads--`
(line 79).  Returns (returned task, new queue, new `waiting_threads`). -/
def dequeue_task (q : List Nat) (active : Bool) (w : Nat) :
    Option Nat × List Nat × Nat :=
  let w1 := w + 1
  match q, active with
  | t :: rest, true => (some t, rest, w1 - 1)
  | _, _ => (none, q, w1)

/-- Whether a worker has exited `thread_loop_function`
(for the `wait_for_completion` precondition of `destroy_threadpool`). -/
def WStatus.isExited : WStatus → Bool
  | .exitedIdle => true
  | .exitedLoop => true
  | _ => false

/-- The transition function: `step l s = some s2` iff label `l` is enabled
in `s` and leads to `s2`.  Each case is a direct transcription of the
corresponding lines of `src/os_threadpool.c` (see `Label`). -/
def step (l : Label) (s : State) : Option State :=
  match l with
  | .enq t =>
      if s.destroyed then none
      else
        some { s with
          start := true
          queue := s.queue ++ [t]
          enqLog := s.enqLog ++ [t]
          events := s.events ++ [PEvent.signal] }
  | .readActiveTrue i =>
      match s.workers[i]? with
      | some .running =>
          if s.active then some { s with workers := s.workers.set i .atDeq }
          else none
      | _ => none
  | .readActiveFalse i =>
      match s.workers[i]? with
      | some .running =>
          if s.active then none
          else some { s with workers := s.workers.set i .exitedLoop }
      | _ => none
  | .deq i =>
      match s.workers[i]? with
      | some .atDeq =>
          match dequeue_task s.queue s.active s.waiting with
          | (some t, q2, w2) =>
              some { s with
                queue := q2
                waiting := w2
                workers := s.workers.set i (WStatus.executing t) }
          | (none, q2, w2) =>
              some { s with
                queue := q2
                waiting := w2
                workers := s.workers.set i .gotNull }
      | _ => none
  | .nullRelock i =>
      match s.workers[i]? with
      | some .gotNull =>
          if s.waiting = s.workers.length then
            some { s with
              active := false
              workers := s.workers.set i .exitedIdle
              events := s.events ++ [PEvent.broadcast] }
          else if s.queue = [] ∧ s.start = true then
            some { s with
              workers := s.workers.set i .blocked
              events := s.events ++ [PEvent.waitEnter] }
          else
            some { s with workers := s.workers.set i .exitedIdle }
      | _ => none
  | .wake i =>
      match s.workers[i]? with
      | some .blocked => some { s with workers := s.workers.set i .exitedIdle }
      | _ => none
  | .finish i =>
      match s.workers[i]? with
      | some (.executing t) =>
          some { s with
            executed := s.executed ++ [t]
            workers := s.workers.set i .running }
      | _ => none
  | .destroy =>
      if s.destroyed then none
      else if s.workers.all WStatus.isExited then
        some { s with
          active := false
          queue := []
          waiting := 0
          destroyed := true }
      else none

/-- Run a list of labels from a state; `none` if some label is disabled. -/
def run : List Label → State → Option State
  | [], s => some s
  | l :: ls, s =>
      match step l s with
      | some s2 => run ls s2
      | none => none

/-- A worker status that accounts for one unit of `waiting_threads`: after
a failed `dequeue_task`, the speculative `waiting_threads++` of line 74 is
never undone, whether the worker is between the two critical sections
(`gotNull`), inside `pthread_cond_wait` (`blocked`), or has already
executed the `break` of line 106 (`exitedIdle`). -/
def isCounted : WStatus → Bool
  | .gotNull => true
  | .blocked => true
  | .exitedIdle => true
  | _ => false

/-- Number of `true → false` transitions of `tp->active` along a run. -/
def activeFlips : List Label → State → Nat
  | [], _ => 0
  | l :: ls, s =>
      match step l s with
      | some s2 =>
          (if s.active = true ∧ s2.active = false then 1 else 0) + activeFlips ls s2
      | none => 0

/-!
## Syntactic lock-discipline view

For the claims about which shared-state writes happen while the pool
mutex is held, each function of `src/os_threadpool.c` is also embedded as
the literal sequence of its lock operations and shared-field writes, in
source order (conditional branches flattened; neither function locks
inside a conditional, so the lock state at each statement is
unambiguous).
-/

/-- The shared fields of the pool / the process globals. -/
inductive CField where
  | queue
  | active
  | waiting
  | start
deriving DecidableEq, Repr

/-- One statement of the C source, restricted to lock operations, writes
of shared fields, and condition-variable calls. -/
inductive CStmt where
  | lockMutex
  | unlockMutex
  | writeF (f : CField)
  | condSignal
  | condBroadcast
  | condWait
deriving DecidableEq, Repr

/-- Body of `enqueue_task` (lines 48-59): `start = 1` (line 50, before the lock),
`pthread_mutex_lock` (line 55), `list_add_tail` (line 56),
`pthread_cond_signal` (line 57), `pthread_mutex_unlock` (line 58). -/
def enqueue_task_body : List CStmt :=
  [.writeF .start, .lockMutex, .writeF .queue, .condSignal, .unlockMutex]

/-- Body of `dequeue_task` (lines 69-84): lock (line 71), `waiting_threads++`
(line 74), `list_del` (line 78), `waiting_threads--` (line 79), unlock
(line 82); the two inner writes sit inside the `if` of line 76. -/
def dequeue_task_body : List CStmt :=
  [.lockMutex, .writeF .waiting, .writeF .queue, .writeF .waiting, .unlockMutex]

/-- The `task == NULL` branch of `thread_loop_function` (lines 96-105):
lock (line 96), `tp->active = 0` (line 99, inside the first branch),
broadcast (line 100), `pthread_cond_wait` (line 103, inside the second
branch), unlock (line 105). -/
def thread_loop_null_body : List CStmt :=
  [.lockMutex, .writeF .active, .condBroadcast, .condWait, .unlockMutex]

/-- Body of `destroy_threadpool` (lines 153-171): `tp->active = 0` (line 159),
`waiting_threads = 0` (line 162), `list_del` of each remaining task
(line 165) — the mutex is destroyed at line 160 and never held here. -/
def destroy_threadpool_body : List CStmt :=
  [.writeF .active, .writeF .waiting, .writeF .queue]

/-- Whether the mutex is held just before statement `i` of a body. -/
def heldBefore (ss : List CStmt) (i : Nat) : Bool :=
  decide ((ss.take i).count CStmt.unlockMutex < (ss.take i).count CStmt.lockMutex)

/-- The shared-field writes of a body, each paired with whether the mutex
is held at that write. -/
def lockedWrites (ss : List CStmt) : List (CField × Bool) :=
  (List.range ss.length).filterMap fun i =>
    match ss[i]? with
    | some (CStmt.writeF f) => some (f, heldBefore ss i)
    | _ => none

/-!
## Helper lemmas
-/

/-- Replacing element `i` (whose value is `b`) by `a` changes `countP p`
by the difference of the two indicator values. -/
theorem countP_set_add {α : Type} (p : α → Bool) :
    ∀ (l : List α) (i : Nat) (a b : α), l[i]? = some b →
      (l.set i a).countP p + (if p b then 1 else 0)
        = l.countP p + (if p a then 1 else 0)
  | [], i, a, b => by intro h; simp at h
  | x :: xs, 0, a, b => by
      intro h
      simp only [List.getElem?_cons_zero, Option.some.injEq] at h
      subst h
      simp [List.countP_cons]
      omega
  | x :: xs, i + 1, a, b => by
      intro h
      simp only [List.getElem?_cons_succ] at h
      have ih := countP_set_add p xs i a b h
      simp only [List.set_cons_succ, List.countP_cons]
      omega

/-- Facts preserved or guaranteed by every single step: the worker count
is fixed, `tp->active` never returns to `true`, the bound
`waiting_threads ≤` (number of counted workers) is preserved, and a
destroyed pool stays inactive. -/
def GoodStep (s s2 : State) : Prop :=
  s2.workers.length = s.workers.length
  ∧ (s.active = false → s2.active = false)
  ∧ (s.waiting ≤ s.workers.countP isCounted →
       s2.waiting ≤ s2.workers.countP isCounted)
  ∧ ((s.destroyed = true → s.active = false) →
       (s2.destroyed = true → s2.active = false))

/-- Every enabled step is a `GoodStep`. -/
theorem step_good {l : Label} {s s2 : State} (h : step l s = some s2) :
    GoodStep s s2 := by
  cases l with
  | enq t =>
      simp only [step] at h
      split at h
      · simp at h
      · simp only [Option.some.injEq] at h
        subst h
        exact ⟨rfl, fun ha => ha, fun hle => hle, fun hda => hda⟩
  | readActiveTrue i =>
      simp only [step] at h
      cases hw : s.workers[i]? with
      | none => rw [hw] at h; simp at h
      | some w =>
          rw [hw] at h
          cases w
          case running =>
            simp at h
            obtain ⟨hact, h⟩ := h
            subst h
            have hc := countP_set_add isCounted s.workers i .atDeq .running hw
            simp [isCounted] at hc
            refine ⟨by simp, fun ha => ha, fun hle => ?_, fun hda => hda⟩
            show s.waiting ≤ List.countP isCounted (s.workers.set i WStatus.atDeq)
            omega
          all_goals simp at h
  | readActiveFalse i =>
      simp only [step] at h
      cases hw : s.workers[i]? with
      | none => rw [hw] at h; simp at h
      | some w =>
          rw [hw] at h
          cases w
          case running =>
            simp at h
            obtain ⟨hact, h⟩ := h
            subst h
            have hc := countP_set_add isCounted s.workers i .exitedLoop .running hw
            simp [isCounted] at hc
            refine ⟨by simp, fun ha => ha, fun hle => ?_, fun hda => hda⟩
            show s.waiting ≤ List.countP isCounted (s.workers.set i WStatus.exitedLoop)
            omega
          all_goals simp at h
  | deq i =>
      simp only [step] at h
      cases hw : s.workers[i]? with
      | none => rw [hw] at h; simp at h
      | some w =>
          rw [hw] at h
          cases w
          case atDeq =>
            rcases hq : s.queue with _ | ⟨t0, rest⟩
            · rw [hq] at h
              rw [show dequeue_task [] s.active s.waiting
                    = (none, [], s.waiting + 1) from rfl] at h
              simp only [Option.some.injEq] at h
              subst h
              have hc := countP_set_add isCounted s.workers i .gotNull .atDeq hw
              simp [isCounted] at hc
              refine ⟨by simp, fun ha => ha, fun hle => ?_, fun hda => hda⟩
              show s.waiting + 1
                ≤ List.countP isCounted (s.workers.set i WStatus.gotNull)
              omega
            · rw [hq] at h
              rcases hact : s.active with _ | _
              · rw [show dequeue_task (t0 :: rest) s.active s.waiting
                      = (none, t0 :: rest, s.waiting + 1) from by rw [hact]; rfl] at h
                simp only [Option.some.injEq] at h
                subst h
                have hc := countP_set_add isCounted s.workers i .gotNull .atDeq hw
                simp [isCounted] at hc
                refine ⟨by simp, fun ha => ha, fun hle => ?_, fun hda => hda⟩
                show s.waiting + 1
                  ≤ List.countP isCounted (s.workers.set i WStatus.gotNull)
                omega
              · rw [show dequeue_task (t0 :: rest) s.active s.waiting
                      = (some t0, rest, s.waiting + 1 - 1) from by rw [hact]; rfl] at h
                simp only [Option.some.injEq] at h
                subst h
                have hc := countP_set_add isCounted s.workers i
                  (.executing t0) .atDeq hw
                simp [isCounted] at hc
                refine ⟨by simp, fun ha => ha, fun hle => ?_, fun hda => hda⟩
                show s.waiting + 1 - 1
                  ≤ List.countP isCounted (s.workers.set i (WStatus.executing t0))
                omega
          all_goals simp at h
  | nullRelock i =>
      simp only [step] at h
      cases hw : s.workers[i]? with
      | none => rw [hw] at h; simp at h
      | some w =>
          rw [hw] at h
          cases w
          case gotNull =>
            have hcE := countP_set_add isCounted s.workers i .exitedIdle .gotNull hw
            have hcB := countP_set_add isCounted s.workers i .blocked .gotNull hw
            simp [isCounted] at hcE hcB
            by_cases hwN : s.waiting = s.workers.length
            · rw [if_pos hwN] at h
              simp only [Option.some.injEq] at h
              subst h
              refine ⟨by simp, fun _ => rfl, fun hle => ?_, fun _ _ => rfl⟩
              show s.waiting
                ≤ List.countP isCounted (s.workers.set i WStatus.exitedIdle)
              omega
            · rw [if_neg hwN] at h
              by_cases hqs : s.queue = [] ∧ s.start = true
              · rw [if_pos hqs] at h
                simp only [Option.some.injEq] at h
                subst h
                refine ⟨by simp, fun ha => ha, fun hle => ?_, fun hda => hda⟩
                show s.waiting
                  ≤ List.countP isCounted (s.workers.set i WStatus.blocked)
                omega
              · rw [if_neg hqs] at h
                simp only [Option.some.injEq] at h
                subst h
                refine ⟨by simp, fun ha => ha, fun hle => ?_, fun hda => hda⟩
                show s.waiting
                  ≤ List.countP isCounted (s.workers.set i WStatus.exitedIdle)
                omega
          all_goals simp at h
  | wake i =>
      simp only [step] at h
      cases hw : s.workers[i]? with
      | none => rw [hw] at h; simp at h
      | some w =>
          rw [hw] at h
          cases w
          case blocked =>
            simp only [Option.some.injEq] at h
            subst h
            have hc := countP_set_add isCounted s.workers i .exitedIdle .blocked hw
            simp [isCounted] at hc
            refine ⟨by simp, fun ha => ha, fun hle => ?_, fun hda => hda⟩
            show s.waiting ≤ List.countP isCounted (s.workers.set i WStatus.exitedIdle)
            omega
          all_goals simp at h
  | finish i =>
      simp only [step] at h
      cases hw : s.workers[i]? with
      | none => rw [hw] at h; simp at h
      | some w =>
          rw [hw] at h
          cases w
          case executing t =>
            simp only [Option.some.injEq] at h
            subst h
            have hc := countP_set_add isCounted s.workers i
              .running (.executing t) hw
            simp [isCounted] at hc
            refine ⟨by simp, fun ha => ha, fun hle => ?_, fun hda => hda⟩
            show s.waiting ≤ List.countP isCounted (s.workers.set i WStatus.running)
            omega
          all_goals simp at h
  | destroy =>
      simp only [step] at h
      split at h
      · simp at h
      · split at h
        · simp only [Option.some.injEq] at h
          subst h
          exact ⟨rfl, fun _ => rfl, fun _ => by simp, fun _ _ => rfl⟩
        · simp at h

/-- A step never turns `tp->active` back on: only `tp->active = 0` is ever
written (lines 99 and 159), never `= 1` after `create_threadpool`. -/
theorem step_active_mono {l : Label} {s s2 : State}
    (h : step l s = some s2) (ha : s.active = false) : s2.active = false :=
  (step_good h).2.1 ha

/-- The relation `GoodStep` extends from single steps to whole runs (it is reflexive
and closed under composition). -/
theorem run_good :
    ∀ {ls : List Label} {s s2 : State}, run ls s = some s2 → GoodStep s s2
  | [], s, s2 => by
      intro h
      simp only [run, Option.some.injEq] at h
      subst h
      exact ⟨rfl, fun ha => ha, fun hle => hle, fun hda => hda⟩
  | l :: ls, s, s2 => by
      intro h
      simp only [run] at h
      cases hst : step l s with
      | none => rw [hst] at h; simp at h
      | some s1 =>
          rw [hst] at h
          obtain ⟨g1, g2, g3, g4⟩ := step_good hst
          obtain ⟨r1, r2, r3, r4⟩ := run_good h
          exact ⟨r1.trans g1, fun ha => r2 (g2 ha), fun hle => r3 (g3 hle),
            fun hda => r4 (g4 hda)⟩

/-- Along a whole run, `tp->active` never returns to `true`. -/
theorem run_active_mono {ls : List Label} {s s2 : State}
    (h : run ls s = some s2) (ha : s.active = false) : s2.active = false :=
  (run_good h).2.1 ha

/-- The number of `true → false` flips of `tp->active` along a successful
run is 1 if `active` went from `true` to `false`, else 0 (a consequence of
monotonicity: `active` can never flip back up, so it flips down at most
once). -/
theorem activeFlips_run :
    ∀ {ls : List Label} {s s2 : State},
      run ls s = some s2 →
      activeFlips ls s = (if s.active = true ∧ s2.active = false then 1 else 0)
  | [], s, s2 => by
      intro h
      simp only [run, Option.some.injEq] at h
      subst h
      simp only [activeFlips]
      cases hA : s.active <;> simp
  | l :: ls, s, s2 => by
      intro h
      simp only [run] at h
      cases hst : step l s with
      | none => rw [hst] at h; simp at h
      | some s1 =>
          rw [hst] at h
          have ih := activeFlips_run h
          simp only [activeFlips, hst]
          rw [ih]
          have hm1 := (step_good hst).2.1
          have hm2 := (run_good h).2.1
          cases hA : s.active <;> cases hB : s1.active <;> cases hC : s2.active <;>
            first
              | decide
              | (have hx := hm1 hA; rw [hB] at hx; exact Bool.noConfusion hx)
              | (have hx := hm2 hB; rw [hC] at hx; exact Bool.noConfusion hx)

/-!
## The claims
-/

/-- Claim C3: every call to `dequeue_task` first increments the
waiting-worker counter; if the queue is non-empty and the active flag is
true, the head task is removed and returned and the counter is
decremented back to its prior value; in every other case (queue empty, or
pool inactive) no task is returned, the queue is unchanged, and the
counter remains incremented. -/
theorem c3_dequeue_task_spec (q : List Nat) (a : Bool) (w : Nat) :
    (∀ (t : Nat) (rest : List Nat),
        q = t :: rest → a = true → dequeue_task q a w = (some t, rest, w)) ∧
    (q = [] ∨ a = false → dequeue_task q a w = (none, q, w + 1)) := by
  constructor
  · rintro t rest rfl rfl
    simp [dequeue_task]
  · rintro (rfl | rfl)
    · rfl
    · cases q <;> rfl

/-- Witness for C3 at concrete inputs: a successful pop from `[5]` with
counter restored to 4, and a failed pop from `[]` leaving the counter
incremented to 5. -/
theorem c3_dequeue_task_spec_witness :
    dequeue_task [5] true 4 = (some 5, [], 4) ∧
    dequeue_task [] true 4 = (none, [], 5) :=
  ⟨(c3_dequeue_task_spec [5] true 4).1 5 [] rfl rfl,
   (c3_dequeue_task_spec [] true 4).2 (Or.inl rfl)⟩

/-- Claim C8: the task queue is FIFO: `enqueue_task` appends at the tail
(`list_add_tail`, line 56), `dequeue_task` removes at the head
(lines 77-78), so two tasks enqueued in order T1, T2 sit in the queue in
that order and are made available for dequeue in that order. -/
theorem c8_queue_fifo :
    (∀ (s : State) (t : Nat) (s2 : State),
        step (Label.enq t) s = some s2 → s2.queue = s.queue ++ [t]) ∧
    (∀ (t : Nat) (rest : List Nat) (w : Nat),
        dequeue_task (t :: rest) true w = (some t, rest, w)) ∧
    (∀ (s : State) (t1 t2 : Nat) (s1 s2 : State),
        step (Label.enq t1) s = some s1 → step (Label.enq t2) s1 = some s2 →
        s2.queue = s.queue ++ [t1, t2]) := by
  have henq : ∀ (s : State) (t : Nat) (s2 : State),
      step (Label.enq t) s = some s2 → s2.queue = s.queue ++ [t] := by
    intro s t s2 h
    simp only [step] at h
    split at h
    · simp at h
    · simp only [Option.some.injEq] at h
      subst h
      rfl
  refine ⟨henq, ?_, ?_⟩
  · intro t rest w
    simp [dequeue_task]
  · intro s t1 t2 s1 s2 h1 h2
    rw [henq s1 t2 s2 h2, henq s t1 s1 h1, List.append_assoc]
    rfl

/-- Witness for C8: enqueuing 3 into a fresh 1-worker pool appends it at
the tail of the (empty) queue, and dequeue pops 7 before 8. -/
theorem c8_queue_fifo_witness :
    step (Label.enq 3) (init 1)
      = some { queue := [3], active := true, start := true, waiting := 0,
               workers := [WStatus.running], executed := [], enqLog := [3],
               events := [PEvent.signal], destroyed := false } ∧
    ({ queue := [3], active := true, start := true, waiting := 0,
       workers := [WStatus.running], executed := [], enqLog := [3],
       events := [PEvent.signal], destroyed := false } : State).queue
      = (init 1).queue ++ [3] ∧
    dequeue_task [7, 8] true 0 = (some 7, [8], 0) :=
  ⟨by decide, c8_queue_fifo.1 (init 1) 3 _ (by decide),
   c8_queue_fifo.2.1 7 [8] 0⟩

/-- Claim C2: after a failed dequeue (worker in the `task == NULL` branch,
lines 95-107): if the idle-worker count equals the worker count, the
worker sets `tp->active = 0` and broadcasts on the condition variable;
otherwise (idle count < N), if the queue is empty and at least one task
has ever been submitted (`start == 1`), the worker blocks on the
condition variable. -/
theorem c2_failed_dequeue_branch (s : State) (i : Nat) (s2 : State)
    (h : step (Label.nullRelock i) s = some s2) :
    (s.waiting = s.workers.length →
       s2.active = false ∧ s2.events = s.events ++ [PEvent.broadcast]) ∧
    (s.waiting < s.workers.length → s.queue = [] → s.start = true →
       s2.workers[i]? = some WStatus.blocked ∧
       s2.events = s.events ++ [PEvent.waitEnter]) := by
  simp only [step] at h
  cases hw : s.workers[i]? with
  | none => rw [hw] at h; simp at h
  | some w =>
      rw [hw] at h
      cases w
      case gotNull =>
        have hlt : i < s.workers.length := (List.getElem?_eq_some_iff.1 hw).1
        by_cases hwN : s.waiting = s.workers.length
        · rw [if_pos hwN] at h
          simp only [Option.some.injEq] at h
          subst h
          exact ⟨fun _ => ⟨rfl, rfl⟩, fun hl => absurd hwN (Nat.ne_of_lt hl)⟩
        · rw [if_neg hwN] at h
          refine ⟨fun hEq => absurd hEq hwN, fun hl hq hs => ?_⟩
          rw [if_pos ⟨hq, hs⟩] at h
          simp only [Option.some.injEq] at h
          subst h
          refine ⟨?_, rfl⟩
          show (s.workers.set i WStatus.blocked)[i]? = some WStatus.blocked
          rw [List.getElem?_set_self (by simpa using hlt)]
      all_goals simp at h

/-- State used by the witness of C2: one worker just failed a dequeue
(`gotNull`), the other still runs; the queue is empty and `start` is set. -/
def c2s : State :=
  { queue := [], active := true, start := true, waiting := 1,
    workers := [WStatus.gotNull, WStatus.running], executed := [],
    enqLog := [9], events := [PEvent.signal], destroyed := false }

/-- Resulting state of the witness of C2: worker 0 is blocked. -/
def c2s2 : State :=
  { queue := [], active := true, start := true, waiting := 1,
    workers := [WStatus.blocked, WStatus.running], executed := [],
    enqLog := [9], events := [PEvent.signal, PEvent.waitEnter],
    destroyed := false }

/-- Witness for C2: with idle count 1 < 2, empty queue and `start` set,
the worker enters `pthread_cond_wait`. -/
theorem c2_failed_dequeue_branch_witness :
    step (Label.nullRelock 0) c2s = some c2s2 ∧
    c2s2.workers[0]? = some WStatus.blocked ∧
    c2s2.events = c2s.events ++ [PEvent.waitEnter] :=
  ⟨by decide,
   (c2_failed_dequeue_branch c2s 0 c2s2 (by decide)).2 (by decide) rfl rfl⟩

/-- Claim C10: `create_threadpool` resets the process-global
`waiting_threads` to zero (line 140) but leaves the process-global
`start` marker untouched, so a pool created after an earlier
`enqueue_task` call in the same process begins with the marker already
set, and its workers can take the block-on-condition branch even though
no task has ever been submitted to that pool (`enqLog = []`). -/
theorem c10_create_keeps_start_marker :
    (∀ (n w : Nat) (b : Bool),
        (create_threadpool n w b).waiting = 0 ∧
        (create_threadpool n w b).start = b) ∧
    (∀ (s : State) (t : Nat) (s2 : State),
        step (Label.enq t) s = some s2 → s2.start = true) ∧
    (∀ w : Nat,
        run [Label.readActiveTrue 0, Label.deq 0, Label.nullRelock 0]
            (create_threadpool 2 w true)
          = some { queue := [], active := true, start := true, waiting := 1,
                   workers := [WStatus.blocked, WStatus.running],
                   executed := [], enqLog := [],
                   events := [PEvent.waitEnter], destroyed := false }) := by
  refine ⟨fun n w b => ⟨rfl, rfl⟩, ?_, fun w => rfl⟩
  intro s t s2 h
  simp only [step] at h
  split at h
  · simp at h
  · simp only [Option.some.injEq] at h
    subst h
    rfl

/-- Witness for C10 (the middle conjunct has a hypothesis): enqueuing
into a fresh pool sets the global `start` marker. -/
theorem c10_create_keeps_start_marker_witness :
    step (Label.enq 4) (init 1)
      = some { queue := [4], active := true, start := true, waiting := 0,
               workers := [WStatus.running], executed := [], enqLog := [4],
               events := [PEvent.signal], destroyed := false } ∧
    ({ queue := [4], active := true, start := true, waiting := 0,
       workers := [WStatus.running], executed := [], enqLog := [4],
       events := [PEvent.signal], destroyed := false } : State).start = true :=
  ⟨by decide, c10_create_keeps_start_marker.2.1 (init 1) 4 _ (by decide)⟩

/-- Claim C7: in every reachable state of a pool with `n` workers (every
state of the model is an observable synchronization point — a point where
no thread holds the mutex), the `waiting_threads` counter is at least 0
and at most `n`.  The counter is a C `unsigned int`; it is modelled as a
natural number, which is faithful because the only decrement (line 79)
occurs in the same critical section as, and after, an increment
(line 74), so the counter never underflows. -/
theorem c7_waiting_in_range (n : Nat) (ls : List Label) (s2 : State)
    (h : run ls (init n) = some s2) :
    0 ≤ s2.waiting ∧ s2.waiting ≤ n := by
  refine ⟨Nat.zero_le _, ?_⟩
  have hg := run_good h
  have h1 : s2.waiting ≤ s2.workers.countP isCounted := hg.2.2.1 (Nat.zero_le _)
  have h2 : s2.workers.length = n := by
    have hlen := hg.1
    simpa [init, create_threadpool] using hlen
  calc s2.waiting ≤ s2.workers.countP isCounted := h1
    _ ≤ s2.workers.length := List.countP_le_length isCounted
    _ = n := h2

/-- State reached in the witness of C7: one of two workers failed a
dequeue, so `waiting_threads = 1 ≤ 2`. -/
def c7s : State :=
  { queue := [], active := true, start := false, waiting := 1,
    workers := [WStatus.gotNull, WStatus.running], executed := [],
    enqLog := [], events := [], destroyed := false }

/-- Witness for C7 on a concrete run of a 2-worker pool. -/
theorem c7_waiting_in_range_witness :
    run [Label.readActiveTrue 0, Label.deq 0] (init 2) = some c7s ∧
    (0 ≤ c7s.waiting ∧ c7s.waiting ≤ 2) :=
  ⟨by decide, c7_waiting_in_range 2 [Label.readActiveTrue 0, Label.deq 0] c7s
    (by decide)⟩

/-- Claim C6: over every run of a pool from creation (where `active` is
set true, line 139), `active` never goes from false back to true, flips
from true to false at most once, and in a completed run (one that ends
with `destroy_threadpool`) it flips exactly once. -/
theorem c6_active_flips_once :
    (∀ (l : Label) (s s2 : State),
        step l s = some s2 → s.active = false → s2.active = false) ∧
    (∀ (n : Nat) (ls : List Label) (s2 : State),
        run ls (init n) = some s2 → activeFlips ls (init n) ≤ 1) ∧
    (∀ (n : Nat) (ls : List Label) (s2 : State),
        run ls (init n) = some s2 → s2.destroyed = true →
        activeFlips ls (init n) = 1) := by
  refine ⟨fun l s s2 h => step_active_mono h, ?_, ?_⟩
  · intro n ls s2 h
    rw [activeFlips_run h]
    split <;> omega
  · intro n ls s2 h hd
    rw [activeFlips_run h]
    have hact : s2.active = false :=
      (run_good h).2.2.2 (fun hdd => Bool.noConfusion hdd) hd
    rw [if_pos ⟨rfl, hact⟩]

/-- Final state of the witness run for C6: a 1-worker pool that
self-stopped and was destroyed. -/
def c6s : State :=
  { queue := [], active := false, start := false, waiting := 0,
    workers := [WStatus.exitedIdle], executed := [],
    enqLog := [], events := [PEvent.broadcast], destroyed := true }

/-- Witness for C6: a completed 1-worker run flips `active` exactly once. -/
theorem c6_active_flips_once_witness :
    run [Label.readActiveTrue 0, Label.deq 0, Label.nullRelock 0, Label.destroy]
        (init 1) = some c6s ∧
    c6s.destroyed = true ∧
    activeFlips
      [Label.readActiveTrue 0, Label.deq 0, Label.nullRelock 0, Label.destroy]
      (init 1) = 1 :=
  ⟨by decide, rfl,
   c6_active_flips_once.2.2 1
     [Label.readActiveTrue 0, Label.deq 0, Label.nullRelock 0, Label.destroy]
     c6s (by decide) rfl⟩

/-- Trace refuting claim C5 on a 2-worker pool: both workers fail their
dequeue (each leaving `waiting_threads` incremented, so the counter
reaches 2); the client then enqueues task 42; worker 0 re-locks, sees
`waiting_threads == num_threads`, and deactivates the pool — without
re-checking the queue, which now holds 42. -/
def c5trace : List Label :=
  [Label.readActiveTrue 0, Label.deq 0, Label.readActiveTrue 1, Label.deq 1,
   Label.enq 42, Label.nullRelock 0]

/-- The state reached by `c5trace`: `active = false` with task 42 still
queued. -/
def c5bad : State :=
  { queue := [42], active := false, start := true, waiting := 2,
    workers := [WStatus.exitedIdle, WStatus.gotNull], executed := [],
    enqLog := [42], events := [PEvent.signal, PEvent.broadcast],
    destroyed := false }

/-- Counterexample to claim C5 ("in every reachable state, if the active
flag is false then the task queue is empty"): the state `c5bad`, reached
from a fresh 2-worker pool by `c5trace`, has `active = false` and a
non-empty queue.  `enqueue_task` never checks `tp->active`, and the
deactivating worker (line 99) never re-checks queue emptiness. -/
theorem c5_counterexample :
    ¬ (∀ (ls : List Label) (s2 : State),
         run ls (init 2) = some s2 → s2.active = false → s2.queue = []) :=
  fun hclaim =>
    absurd (hclaim c5trace c5bad (by decide) (by decide)) (by decide)

/-- Amended claim C5: a worker's dequeue removes a task from the queue
only while `active` is true (the pop at lines 77-78 is guarded by
`tp->active == 1` at line 76); but the queue can be non-empty while
`active` is false, because `enqueue_task` does not check the active flag
and deactivation (line 99) does not re-check queue emptiness. -/
theorem c5_amended_pop_only_while_active :
    (∀ (s : State) (i : Nat) (s2 : State),
        step (Label.deq i) s = some s2 → s2.queue ≠ s.queue →
        s.active = true) ∧
    (run c5trace (init 2) = some c5bad ∧ c5bad.active = false ∧
      c5bad.queue = [42]) := by
  constructor
  · intro s i s2 h hne
    simp only [step] at h
    cases hw : s.workers[i]? with
    | none => rw [hw] at h; simp at h
    | some w =>
        rw [hw] at h
        cases w
        case atDeq =>
          rcases hq : s.queue with _ | ⟨t0, rest⟩
          · rw [hq] at h
            rw [show dequeue_task [] s.active s.waiting
                  = (none, [], s.waiting + 1) from rfl] at h
            simp only [Option.some.injEq] at h
            subst h
            exact absurd hq.symm hne
          · rw [hq] at h
            rcases hact : s.active with _ | _
            · rw [show dequeue_task (t0 :: rest) s.active s.waiting
                    = (none, t0 :: rest, s.waiting + 1) from by rw [hact]; rfl] at h
              simp only [Option.some.injEq] at h
              subst h
              exact absurd hq.symm hne
            · rfl
        all_goals simp at h
  · exact ⟨by decide, rfl, rfl⟩

/-- State used by the witness of C5's amended theorem: a worker about to
dequeue from a non-empty queue of an active pool. -/
def c5ws : State :=
  { queue := [3], active := true, start := true, waiting := 0,
    workers := [WStatus.atDeq], executed := [], enqLog := [3],
    events := [PEvent.signal], destroyed := false }

/-- Result state of the witness of C5's amended theorem. -/
def c5ws2 : State :=
  { queue := [], active := true, start := true, waiting := 0,
    workers := [WStatus.executing 3], executed := [], enqLog := [3],
    events := [PEvent.signal], destroyed := false }

/-- Witness for the amended C5: a pop that changes the queue happens with
`active = true`. -/
theorem c5_amended_pop_only_while_active_witness :
    step (Label.deq 0) c5ws = some c5ws2 ∧ c5ws2.queue ≠ c5ws.queue ∧
    c5ws.active = true :=
  ⟨by decide, by decide,
   c5_amended_pop_only_while_active.1 c5ws 0 c5ws2 (by decide) (by decide)⟩

/-- The C1 bug trace on a 2-worker pool: both workers pass the line-92
check and fail their dequeue; the client enqueues task 42 (position 4,
0-based, of the trace — before any `nullRelock` step); then worker 0
observes `waiting_threads == num_threads` and deactivates, worker 1 does
the same, and the client destroys the pool. -/
def c1trace : List Label :=
  [Label.readActiveTrue 0, Label.deq 0, Label.readActiveTrue 1, Label.deq 1,
   Label.enq 42, Label.nullRelock 0, Label.nullRelock 1, Label.destroy]

/-- Intermediate state of the C1 bug trace: task 42 has been enqueued
(and is the only entry of `enqLog`) while the pool is still active and no
worker has yet run the `waiting_threads == num_threads` check. -/
def c1mid : State :=
  { queue := [42], active := true, start := true, waiting := 2,
    workers := [WStatus.gotNull, WStatus.gotNull], executed := [],
    enqLog := [42], events := [PEvent.signal], destroyed := false }

/-- Final state of the C1 bug trace: the pool is torn down with task 42
never executed (it was purged, unexecuted, by `destroy_threadpool`). -/
def c1end : State :=
  { queue := [], active := false, start := true, waiting := 0,
    workers := [WStatus.exitedIdle, WStatus.exitedIdle], executed := [],
    enqLog := [42],
    events := [PEvent.signal, PEvent.broadcast, PEvent.broadcast],
    destroyed := true }

/-- Claim C1 fails on the code (the claim itself is the spec's intent):
in a 2-worker pool, both workers fail their dequeue (raising
`waiting_threads` to 2 inside `dequeue_task`, which releases the mutex
before `thread_loop_function` re-locks at line 96); in that window the
client enqueues task 42.  Task 42 therefore enters the queue strictly
before any worker observes the globally-idle state — `c1mid` is still
active with 42 queued — yet worker 0 then finds
`waiting_threads == num_threads` (line 98), deactivates the pool without
re-checking the queue, both workers exit, and teardown purges 42 with
`executed = []`: a task enqueued before the globally-idle observation is
never executed. -/
theorem c1_lost_task_failing_run :
    run (List.take 5 c1trace) (init 2) = some c1mid ∧
    c1mid.active = true ∧ c1mid.queue = [42] ∧ c1mid.enqLog = [42] ∧
    run (List.drop 5 c1trace) c1mid = some c1end ∧
    c1end.destroyed = true ∧ c1end.executed = [] ∧ c1end.enqLog = [42] :=
  ⟨by decide, rfl, rfl, rfl, by decide, rfl, rfl, rfl⟩

/-- The C4 bug trace on a 2-worker pool: task 7 is enqueued; worker 0
takes it; worker 1 fails its dequeue and blocks on the condition variable
(queue empty, `start` set, idle count 1 < 2); worker 0 finishes task 7;
the client enqueues task 9 (signalling the condition variable); worker 1
wakes — and, per lines 105-106, exits the loop. -/
def c4trace : List Label :=
  [Label.enq 7, Label.readActiveTrue 0, Label.deq 0, Label.readActiveTrue 1,
   Label.deq 1, Label.nullRelock 1, Label.finish 0, Label.enq 9, Label.wake 1]

/-- Intermediate state of the C4 bug trace: worker 1 is blocked inside
`pthread_cond_wait` while worker 0 executes task 7, pool active. -/
def c4mid : State :=
  { queue := [], active := true, start := true, waiting := 1,
    workers := [WStatus.executing 7, WStatus.blocked], executed := [],
    enqLog := [7], events := [PEvent.signal, PEvent.waitEnter],
    destroyed := false }

/-- Final state of the C4 bug trace: worker 1 was woken by the enqueue of
task 9 and exited the loop (`exitedIdle`) although the pool is still
active and task 9 sits in the queue. -/
def c4end : State :=
  { queue := [9], active := true, start := true, waiting := 1,
    workers := [WStatus.running, WStatus.exitedIdle], executed := [7],
    enqLog := [7, 9],
    events := [PEvent.signal, PEvent.waitEnter, PEvent.signal],
    destroyed := false }

/-- Claim C4 fails on the code (the claim itself matches the code's own
documentation of `dequeue_task`, lines 62-67): the `break` at line 106 is
unconditional, so a worker that blocked in `pthread_cond_wait` and is
then woken by the signal of a new enqueue exits `thread_loop_function`
without retrying a dequeue — here worker 1, woken by the enqueue of task
9, ends `exitedIdle` while the pool is still active (`c4end.active =
true`) and task 9 is available in the queue. -/
theorem c4_wake_then_exit_failing_run :
    run (List.take 6 c4trace) (init 2) = some c4mid ∧
    c4mid.workers[1]? = some WStatus.blocked ∧
    run (List.drop 6 c4trace) c4mid = some c4end ∧
    c4end.active = true ∧ c4end.queue = [9] ∧
    c4end.workers[1]? = some WStatus.exitedIdle :=
  ⟨by decide, rfl, by decide, rfl, rfl, rfl⟩

/-- Counterexample to claim C9 ("every mutation of the queue and of the
pool-wide state fields — active flag, waiting count, and the work-started
marker flipped by enqueue — happens while holding the pool's mutex"): the
very first write of `enqueue_task` is `start = 1` at line 50, before
`pthread_mutex_lock` at line 55, so its recorded lock state is `false`;
hence not all writes of `enqueue_task` are mutex-protected. -/
theorem c9_counterexample :
    ((lockedWrites enqueue_task_body).all fun p => p.2) = false ∧
    (lockedWrites enqueue_task_body)[0]? = some (CField.start, false) := by
  exact ⟨by decide, by decide⟩

/-- Amended claim C9: the queue, active-flag and waiting-counter writes
of `enqueue_task`, `dequeue_task` and `thread_loop_function` all happen
under the pool mutex; however, `enqueue_task` writes the work-started
marker `start` before acquiring the mutex (line 50), and
`destroy_threadpool` — which runs after all workers are joined and
destroys the mutex at line 160 — writes the active flag, the waiting
counter and the queue without holding the mutex. -/
theorem c9_amended_lock_discipline :
    lockedWrites enqueue_task_body
      = [(CField.start, false), (CField.queue, true)] ∧
    lockedWrites dequeue_task_body
      = [(CField.waiting, true), (CField.queue, true), (CField.waiting, true)] ∧
    lockedWrites thread_loop_null_body = [(CField.active, true)] ∧
    lockedWrites destroy_threadpool_body
      = [(CField.active, false), (CField.waiting, false), (CField.queue, false)] := by
  exact ⟨by decide, by decide, by decide, by decide⟩

end OsThreadpool
